import Mathlib

/-!
Formal model of deepdoctection's dataset merge/buffer/split subsystem
(`deepdoctection/datasets/base.py`).

Streams are modelled as finite lists of datapoints.  The process-wide random
source is threaded explicitly: a list of Bernoulli draws for `split_datasets`
(`np.random.binomial(1, r, n)`) and an index permutation for the shuffle in
`buffer_datasets`.  The external dataflow collaborators that `base.py` imports
(`get_merged_categories`, `ConcatData`, `CacheData`, `CustomDataFromList`) are
not part of the file and are modelled from their specified behaviour; each such
definition is marked `Modelled from the spec:`.
-/

namespace DeepDoc

/-- Minimal dataset descriptor (`DatasetInfo`): carries at least a name. -/
structure DatasetInfo where
  name : String
deriving DecidableEq

/-- Category registry of one dataset (`DatasetCategories`): category names with
their permitted values, and for each category the sub-categories attached to
it, each with its own permitted values. -/
structure DatasetCategories where
  cats : List (String × List String)
  sub_cats : List (String × List (String × List String))
deriving DecidableEq

namespace DatasetCategories

/-- Names of the categories a registry defines. -/
def catNames (c : DatasetCategories) : List String := c.cats.map Prod.fst

/-- Whether the registry defines the category `cat`. -/
def defines (c : DatasetCategories) (cat : String) : Bool := c.catNames.contains cat

/-- Permitted values the registry attaches to category `cat`. -/
def valuesOf (c : DatasetCategories) (cat : String) : List String :=
  (c.cats.filter (fun p => p.1 == cat)).flatMap Prod.snd

/-- Sub-category entries (name, permitted values) the registry attaches to `cat`. -/
def subCatsOf (c : DatasetCategories) (cat : String) : List (String × List String) :=
  (c.sub_cats.filter (fun p => p.1 == cat)).flatMap Prod.snd

/-- Sub-category names the registry attaches to `cat`. -/
def subCatNamesOf (c : DatasetCategories) (cat : String) : List String :=
  (c.subCatsOf cat).map Prod.fst

/-- Permitted values the registry attaches to sub-category `sub` of `cat`. -/
def subValuesOf (c : DatasetCategories) (cat sub : String) : List String :=
  ((c.subCatsOf cat).filter (fun p => p.1 == sub)).flatMap Prod.snd

end DatasetCategories

open DatasetCategories

/-- Names occurring in any of the input registries. -/
def mergedNames (regs : List DatasetCategories) : List String :=
  (regs.flatMap catNames).dedup

/-- Sub-category entries retained for category `c` after the merge: candidates
are all sub-category names any input attaches to `c`; a candidate is kept iff
it is attached to `c` in every input that defines `c`; its values are the union
over all inputs. -/
def mergedSubEntry (regs : List DatasetCategories) (c : String) :
    List (String × List String) :=
  (((regs.flatMap fun r => r.subCatNamesOf c).dedup).filter fun s =>
      regs.all fun r => !(r.defines c) || (r.subCatNamesOf c).contains s).map
    fun s => (s, (regs.flatMap fun r => r.subValuesOf c s).dedup)

/-- Modelled from the spec: `get_merged_categories` (imported by `base.py` from
`datasets/info.py`, which is not part of the file).  Rules of spec 4.1: merged
category set is the union of category names across all inputs; merged permitted
values per category are the union of that category's values across inputs
defining it; a sub-category name is retained under a category iff it is present
for that category in every input that defines the category, with its values the
union across inputs. -/
def get_merged_categories (regs : List DatasetCategories) : DatasetCategories where
  cats :=
    (mergedNames regs).map fun c => (c, (regs.flatMap fun r => r.valuesOf c).dedup)
  sub_cats :=
    (mergedNames regs).map fun c => (c, mergedSubEntry regs c)

theorem mem_valuesOf {c : DatasetCategories} {cat v : String} :
    v ∈ c.valuesOf cat ↔ ∃ p ∈ c.cats, p.1 = cat ∧ v ∈ p.2 := by
  simp only [valuesOf, List.mem_flatMap, List.mem_filter, beq_iff_eq]
  constructor
  · rintro ⟨p, ⟨hp, hp1⟩, hv⟩; exact ⟨p, hp, hp1, hv⟩
  · rintro ⟨p, hp, hp1, hv⟩; exact ⟨p, ⟨hp, hp1⟩, hv⟩

theorem mem_subCatNamesOf {c : DatasetCategories} {cat s : String} :
    s ∈ c.subCatNamesOf cat ↔ ∃ p ∈ c.sub_cats, p.1 = cat ∧ s ∈ p.2.map Prod.fst := by
  simp only [subCatNamesOf, subCatsOf, List.map_flatMap, List.mem_flatMap,
    List.mem_filter, beq_iff_eq]
  constructor
  · rintro ⟨p, ⟨hp, hp1⟩, hv⟩; exact ⟨p, hp, hp1, hv⟩
  · rintro ⟨p, hp, hp1, hv⟩; exact ⟨p, ⟨hp, hp1⟩, hv⟩

theorem valuesOf_subset_catNames {c : DatasetCategories} {cat v : String}
    (h : v ∈ c.valuesOf cat) : cat ∈ c.catNames := by
  obtain ⟨p, hp, hp1, -⟩ := mem_valuesOf.1 h
  exact hp1 ▸ List.mem_map_of_mem Prod.fst hp

theorem catNames_get_merged (regs : List DatasetCategories) :
    (get_merged_categories regs).catNames = mergedNames regs := by
  simp only [catNames, get_merged_categories, List.map_map]
  exact List.map_id'' (fun _ => rfl) _

theorem mem_catNames_get_merged {regs : List DatasetCategories} {cat : String} :
    cat ∈ (get_merged_categories regs).catNames ↔ ∃ r ∈ regs, cat ∈ r.catNames := by
  rw [catNames_get_merged]
  simp [mergedNames, List.mem_dedup, List.mem_flatMap]

theorem mem_valuesOf_get_merged {regs : List DatasetCategories} {cat v : String} :
    v ∈ (get_merged_categories regs).valuesOf cat ↔ ∃ r ∈ regs, v ∈ r.valuesOf cat := by
  rw [mem_valuesOf]
  constructor
  · rintro ⟨p, hp, hp1, hv⟩
    simp only [get_merged_categories, List.mem_map] at hp
    obtain ⟨c, -, hc⟩ := hp
    subst hc
    simp only at hp1 hv
    subst hp1
    rw [List.mem_dedup, List.mem_flatMap] at hv
    exact hv
  · rintro ⟨r, hr, hv⟩
    have hcat : cat ∈ mergedNames regs := by
      rw [mergedNames, List.mem_dedup, List.mem_flatMap]
      exact ⟨r, hr, valuesOf_subset_catNames hv⟩
    refine ⟨(cat, (regs.flatMap fun r => r.valuesOf cat).dedup), ?_, rfl, ?_⟩
    · simp only [get_merged_categories, List.mem_map]
      exact ⟨cat, hcat, rfl⟩
    · rw [List.mem_dedup, List.mem_flatMap]
      exact ⟨r, hr, hv⟩

theorem mem_subCatNames_get_merged {regs : List DatasetCategories} {cat s : String}
    (hcat : cat ∈ (get_merged_categories regs).catNames) :
    s ∈ (get_merged_categories regs).subCatNamesOf cat ↔
      ∀ r ∈ regs, r.defines cat = true → s ∈ r.subCatNamesOf cat := by
  have hnames : cat ∈ mergedNames regs := by rwa [catNames_get_merged] at hcat
  have hfst : ∀ c : String,
      (mergedSubEntry regs c).map Prod.fst
        = ((regs.flatMap fun r => r.subCatNamesOf c).dedup).filter fun t =>
            regs.all fun r => !(r.defines c) || (r.subCatNamesOf c).contains t := by
    intro c
    simp only [mergedSubEntry, List.map_map]
    exact List.map_id'' (fun _ => rfl) _
  rw [mem_subCatNamesOf]
  constructor
  · rintro ⟨p, hp, hp1, hs⟩
    simp only [get_merged_categories, List.mem_map] at hp
    obtain ⟨c, -, hc⟩ := hp
    subst hc
    simp only at hp1 hs
    subst hp1
    rw [hfst _, List.mem_filter] at hs
    intro r hr hdef
    have := (List.all_eq_true.1 hs.2) r hr
    rw [hdef] at this
    simpa [List.contains, List.elem_iff] using this
  · intro hall
    have hnames2 : ∃ r ∈ regs, cat ∈ r.catNames := by
      rw [mergedNames, List.mem_dedup, List.mem_flatMap] at hnames; exact hnames
    obtain ⟨r0, hr0, hcat0⟩ := hnames2
    have hdef0 : r0.defines cat = true := by
      simp [defines, List.contains, List.elem_iff, hcat0]
    refine ⟨(cat, mergedSubEntry regs cat), ?_, rfl, ?_⟩
    · simp only [get_merged_categories, List.mem_map]
      exact ⟨cat, hnames, rfl⟩
    · rw [hfst cat, List.mem_filter]
      constructor
      · rw [List.mem_dedup, List.mem_flatMap]
        exact ⟨r0, hr0, hall r0 hr0 hdef0⟩
      · rw [List.all_eq_true]
        intro r hr
        rw [Bool.or_eq_true, Bool.not_eq_true']
        by_cases hdef : r.defines cat = true
        · exact Or.inr (by simp [List.contains, List.elem_iff, hall r hr hdef])
        · exact Or.inl (Bool.eq_false_iff.mpr hdef)

/-- Modelled from the spec: `ConcatData` (imported from `deepdoctection/dataflow`)
concatenates the given streams strictly sequentially. -/
def ConcatData {α : Type} (dfs : List (List α)) : List α := dfs.flatten

/-- Modelled from the spec: `CacheData(df, shuffle=True).get_cache()` drains the
stream to exhaustion and applies a random permutation; the permutation is
threaded explicitly as the list of source indices in their shuffled order. -/
def CacheData_get_cache {α : Type} (df : List α) (σ : List Nat) : List α :=
  σ.filterMap fun i => df[i]?

/-- Modelled from the spec: `CustomDataFromList(cache, max_datapoints)` yields a
stream over the cached list truncated to at most `max_datapoints` items. -/
def CustomDataFromList {α : Type} (cache : List α) (max_datapoints : Nat) : List α :=
  cache.take max_datapoints

/-- External collaborator view of one input dataset (`DatasetBase`): its
`DatasetInfo`, the category registry carried on its dataflow builder (absent
when the dataset defines none), and `dataflow.build` as a function from build
options to the produced stream.  Build options stay opaque (type `κ`). -/
structure Dataset (κ α : Type) where
  info : DatasetInfo
  categories : Option DatasetCategories
  build : κ → List α

/-- DatasetBase.__init__ line 44: `assert self._info() is not None, "Dataset
requires at least a name defined in DatasetInfo"`. -/
def datasetBase_checkInfo (info : Option DatasetInfo) : Except String DatasetInfo :=
  match info with
  | none => Except.error "Dataset requires at least a name defined in DatasetInfo"
  | some i => Except.ok i

/-- Inner builder `MergeDataFlow` (lines 192-200): holds the underlying
builders and, optionally, explicitly passed dataflows. -/
structure MergeDataFlow (κ α : Type) where
  dataflow_builders : List (κ → List α)
  dataflows : Option (List (List α))

/-- MergeDataFlow.build (lines 202-221): with explicitly passed dataflows the
options are ignored and the pre-built streams are concatenated; otherwise every
underlying builder is invoked with the identical options and the results are
concatenated. -/
def MergeDataFlow.build {κ α : Type} (b : MergeDataFlow κ α) (kwargs : κ) : List α :=
  match b.dataflows with
  | some dfs => ConcatData dfs
  | none => ConcatData (b.dataflow_builders.map fun db => db kwargs)

/-- State of a `MergeDataset` instance before any split: the input datasets,
the `dataflows` attribute (explicitly passed streams), the buffer
`datapoint_list`, and the active facade builder `_dataflow_builder`. -/
structure MergeDataset (κ α : Type) where
  datasets : List (Dataset κ α)
  dataflows : Option (List (List α))
  datapoint_list : Option (List α)
  dataflow : MergeDataFlow κ α

/-- MergeDataset._info (lines 187-189): the constant descriptor named merge. -/
def MergeDataset_info : DatasetInfo := { name := "merge" }

/-- MergeDataset._categories (lines 182-185): merge the registries of those
datasets whose builders carry one. -/
def MergeDataset_categories {κ α : Type} (datasets : List (Dataset κ α)) :
    DatasetCategories :=
  get_merged_categories (datasets.filterMap fun d => d.categories)

/-- MergeDataset._builder (lines 191-226): a `MergeDataFlow` over the datasets'
builders; its `dataflows` attribute is set exactly when explicit dataflows were
passed on the instance. -/
def MergeDataset_builder {κ α : Type} (datasets : List (Dataset κ α))
    (dataflows : Option (List (List α))) : MergeDataFlow κ α :=
  { dataflow_builders := datasets.map fun d => d.build
    dataflows := dataflows }

/-- MergeDataset.__init__ (lines 173-180) together with DatasetBase.__init__
(lines 43-48): the `_info` check runs against MergeDataset's own constant
descriptor, and the merged categories are computed eagerly and attached to the
builder (returned here alongside the state). -/
def MergeDataset_init {κ α : Type} (datasets : List (Dataset κ α)) :
    Except String (MergeDataset κ α × DatasetCategories) :=
  match datasetBase_checkInfo (some MergeDataset_info) with
  | Except.error e => Except.error e
  | Except.ok _ =>
      Except.ok
        ({ datasets := datasets
           dataflows := none
           datapoint_list := none
           dataflow := MergeDataset_builder datasets none },
         MergeDataset_categories datasets)

/-- MergeDataset.explicit_dataflows (lines 228-238).  The assignment
`self.dataflows = dataflows` precedes the assert; on assert failure the method
raises, leaving the assignment in place and the facade builder untouched.  The
Boolean result records whether the assert passed. -/
def explicit_dataflows {κ α : Type} (s : MergeDataset κ α)
    (dataflows : List (List α)) : MergeDataset κ α × Bool :=
  let s1 : MergeDataset κ α := { s with dataflows := some dataflows }
  if s1.datasets.length ≤ dataflows.length then
    ({ s1 with dataflow := MergeDataset_builder s1.datasets (some dataflows) }, true)
  else
    (s1, false)

/-- MergeDataset.buffer_datasets (lines 240-248): builds the active dataflow
with the given options and caches its shuffled output; `σ` is the explicit
shuffle order. -/
def buffer_datasets {κ α : Type} (s : MergeDataset κ α) (kwargs : κ)
    (σ : List Nat) : MergeDataset κ α :=
  { s with datapoint_list := some (CacheData_get_cache (s.dataflow.build kwargs) σ) }

/-- Train part of the Bernoulli split (line 261): datapoints whose draw is 0. -/
def train_split {α : Type} (dps : List α) (draws : List Bool) : List α :=
  ((dps.zip draws).filter fun p => !p.2).map Prod.fst

/-- Held-out part of the Bernoulli split (line 262): datapoints whose draw is 1. -/
def heldout_split {α : Type} (dps : List α) (draws : List Bool) : List α :=
  ((dps.zip draws).filter fun p => p.2).map Prod.fst

/-- Elements at even positions (line 267): `not id % 2` over `enumerate`. -/
def even_positions {α : Type} (l : List α) : List α :=
  (l.enum.filter fun p => p.1 % 2 == 0).map Prod.snd

/-- Elements at odd positions (line 266): `id % 2` truthy over `enumerate`. -/
def odd_positions {α : Type} (l : List α) : List α :=
  (l.enum.filter fun p => p.1 % 2 != 0).map Prod.snd

/-- Split cache of the inner `SplitDataFlow` builder (lines 287-298): the
`test` entry exists only when a test split was produced. -/
structure SplitDataFlow (α : Type) where
  split_cache : List (String × List α)

/-- Errors raised by `SplitDataFlow.build`: `int(None)` raises `TypeError`;
`self.split_cache[split]` with an unknown key raises `KeyError`. -/
inductive SplitBuildErr where
  | typeErr : SplitBuildErr
  | keyErr : SplitBuildErr
deriving DecidableEq

/-- Keyword arguments considered by `SplitDataFlow.build` (lines 308-309). -/
structure SplitKwargs where
  split : Option String
  max_datapoints : Option Nat

/-- SplitDataFlow.build (lines 300-311): `split` defaults to "train";
`int(kwargs.get("max_datapoints"))` raises `TypeError` when the argument is
absent; an unknown split name raises `KeyError`; otherwise the cached split is
streamed through `CustomDataFromList` with the given bound. -/
def SplitDataFlow.build {α : Type} (b : SplitDataFlow α) (kwargs : SplitKwargs) :
    Except SplitBuildErr (List α) :=
  let split := kwargs.split.getD "train"
  match kwargs.max_datapoints with
  | none => Except.error SplitBuildErr.typeErr
  | some m =>
      match b.split_cache.lookup split with
      | none => Except.error SplitBuildErr.keyErr
      | some cache => Except.ok (CustomDataFromList cache m)

/-- MergeDataset.split_datasets (lines 250-314): requires the buffer; the
`np.random.binomial(1, r, n)` outcomes are threaded explicitly as `draws`;
returns the `SplitDataFlow` installed as the new facade builder. -/
def split_datasets {κ α : Type} (s : MergeDataset κ α) (draws : List Bool)
    (add_test : Bool) : Except String (SplitDataFlow α) :=
  match s.datapoint_list with
  | none => Except.error "datasets need to be buffered before splitting"
  | some dps =>
      let train_dataset := train_split dps draws
      let val0 := heldout_split dps draws
      let test_dataset : Option (List α) :=
        if add_test then some (odd_positions val0) else none
      let val_dataset := if add_test then even_positions val0 else val0
      Except.ok
        { split_cache :=
            match test_dataset with
            | none => [("train", train_dataset), ("val", val_dataset)]
            | some t => [("train", train_dataset), ("val", val_dataset), ("test", t)] }

theorem length_filter_add_length_filter_not {β : Type} (l : List β) (p : β → Bool) :
    (l.filter p).length + (l.filter fun x => !p x).length = l.length := by
  induction l with
  | nil => rfl
  | cons x xs ih =>
    cases h : p x
    · simp [List.filter_cons, h]
      omega
    · simp [List.filter_cons, h]
      omega

theorem filterMap_getElem_range {β : Type} (l : List β) :
    (List.range l.length).filterMap (fun i => l[i]?) = l := by
  induction l with
  | nil => rfl
  | cons x xs ih =>
    rw [List.length_cons, List.range_succ_eq_map, List.filterMap_cons, List.filterMap_map]
    simp only [List.getElem?_cons_zero, Function.comp_def, List.getElem?_cons_succ]
    rw [ih]

theorem CacheData_get_cache_perm {α : Type} (df : List α) (σ : List Nat)
    (hσ : σ.Perm (List.range df.length)) : (CacheData_get_cache df σ).Perm df := by
  have h1 : (CacheData_get_cache df σ).Perm
      ((List.range df.length).filterMap fun i => df[i]?) :=
    hσ.filterMap fun i => df[i]?
  rwa [filterMap_getElem_range] at h1

/-- Sample dataset with a one-element stream. -/
def sampleDataset1 : Dataset Unit Nat :=
  { info := { name := "d1" }, categories := none, build := fun _ => [1] }

/-- Second sample dataset with a one-element stream. -/
def sampleDataset2 : Dataset Unit Nat :=
  { info := { name := "d2" }, categories := none, build := fun _ => [2] }

/-- Sample merge state in the initial streaming mode over the sample datasets. -/
def sampleStreaming : MergeDataset Unit Nat :=
  { datasets := [sampleDataset1, sampleDataset2]
    dataflows := none
    datapoint_list := none
    dataflow := MergeDataset_builder [sampleDataset1, sampleDataset2] none }

/-- Sample merge state that has buffered five datapoints. -/
def sampleBuffered : MergeDataset Unit Nat :=
  { datasets := []
    dataflows := none
    datapoint_list := some [10, 11, 12, 13, 14]
    dataflow := MergeDataset_builder [] none }

/-- C3: with fewer explicitly assigned streams than datasets the call fails the
count check; with at least as many it succeeds, and afterwards `build` on any
options returns exactly the concatenation of the assigned streams in assignment
order, ignoring the options. -/
theorem explicit_dataflows_count_and_build {κ α : Type} (s : MergeDataset κ α)
    (flows : List (List α)) :
    (flows.length < s.datasets.length → (explicit_dataflows s flows).2 = false)
    ∧ (s.datasets.length ≤ flows.length →
        (explicit_dataflows s flows).2 = true
        ∧ ∀ kwargs : κ,
            (explicit_dataflows s flows).1.dataflow.build kwargs = ConcatData flows) := by
  constructor
  · intro h
    simp [explicit_dataflows, Nat.not_le.2 h]
  · intro h
    constructor
    · simp [explicit_dataflows, h]
    · intro kwargs
      simp [explicit_dataflows, h, MergeDataFlow.build, MergeDataset_builder]

/-- Witness for C3 at concrete inputs: one undersized call fails, one
sufficiently sized call succeeds and builds the concatenation. -/
theorem explicit_dataflows_count_and_build_witness :
    ([[42]].length < sampleStreaming.datasets.length
      ∧ (explicit_dataflows sampleStreaming [[42]]).2 = false)
    ∧ (sampleStreaming.datasets.length ≤ [[5], [6, 7]].length
      ∧ (explicit_dataflows sampleStreaming [[5], [6, 7]]).2 = true
      ∧ (explicit_dataflows sampleStreaming [[5], [6, 7]]).1.dataflow.build ()
          = ConcatData [[5], [6, 7]]) := by
  refine ⟨⟨by decide, ?_⟩, by decide,
    ((explicit_dataflows_count_and_build sampleStreaming [[5], [6, 7]]).2 (by decide)).1,
    ((explicit_dataflows_count_and_build sampleStreaming [[5], [6, 7]]).2 (by decide)).2 ()⟩
  exact (explicit_dataflows_count_and_build sampleStreaming [[42]]).1 (by decide)

/-- C4: in streaming mode the facade builder invokes each underlying builder
with the identical options and concatenates the results sequentially; for two
datasets the first block of the output is exactly dataset one's stream and the
rest is dataset two's, and the initial facade builder produced by construction
is exactly this streaming builder. -/
theorem streaming_build_concat {κ α : Type} (d1 d2 : Dataset κ α)
    (ds : List (Dataset κ α)) (kwargs : κ) :
    ((MergeDataset_builder ds none).build kwargs
        = ConcatData (ds.map fun d => d.build kwargs))
    ∧ ((MergeDataset_init ds).toOption.map fun p => p.1.dataflow)
        = some (MergeDataset_builder ds none)
    ∧ (MergeDataset_builder [d1, d2] none).build kwargs
        = d1.build kwargs ++ d2.build kwargs
    ∧ ((MergeDataset_builder [d1, d2] none).build kwargs).take (d1.build kwargs).length
        = d1.build kwargs
    ∧ ((MergeDataset_builder [d1, d2] none).build kwargs).drop (d1.build kwargs).length
        = d2.build kwargs := by
  have h1 : (MergeDataset_builder ds none).build kwargs
      = ConcatData (ds.map fun d => d.build kwargs) := by
    simp [MergeDataset_builder, MergeDataFlow.build, List.map_map, Function.comp_def]
  have h2 : (MergeDataset_builder [d1, d2] none).build kwargs
      = d1.build kwargs ++ d2.build kwargs := by
    simp [MergeDataset_builder, MergeDataFlow.build, ConcatData]
  refine ⟨h1, rfl, h2, ?_, ?_⟩
  · rw [h2]; exact List.take_left _ _
  · rw [h2]; exact List.drop_left _ _

/-- C7: calling `split_datasets` on an instance whose buffer is absent fails
with the not-buffered error, whatever the arguments. -/
theorem split_requires_buffer {κ α : Type} (s : MergeDataset κ α)
    (hbuf : s.datapoint_list = none) (draws : List Bool) (add_test : Bool) :
    split_datasets s draws add_test
      = Except.error "datasets need to be buffered before splitting" := by
  simp [split_datasets, hbuf]

/-- Witness for C7 at a concrete unbuffered instance. -/
theorem split_requires_buffer_witness :
    sampleStreaming.datapoint_list = none
    ∧ split_datasets sampleStreaming [true, false] true
        = Except.error "datasets need to be buffered before splitting" :=
  ⟨rfl, split_requires_buffer sampleStreaming rfl [true, false] true⟩

/-- Counterexample for C10: after a failed undersized `explicit_dataflows` call
the `dataflows` attribute is mutated, but a subsequent `build` still uses the
previous facade builder (streaming concatenation `[1, 2]`), not the undersized
explicit stream list (whose concatenation would be `[42]`). -/
theorem explicit_dataflows_failure_build_unchanged :
    (explicit_dataflows sampleStreaming [[42]]).2 = false
    ∧ (explicit_dataflows sampleStreaming [[42]]).1.dataflows = some [[42]]
    ∧ (explicit_dataflows sampleStreaming [[42]]).1.dataflow.build () = [1, 2]
    ∧ ConcatData [[42]] = [42]
    ∧ ([1, 2] : List Nat) ≠ [42] :=
  ⟨rfl, rfl, rfl, rfl, by decide⟩

/-- C10 amended: a failed undersized `explicit_dataflows` call leaves the
instance's `dataflows` attribute set to the passed streams (the mutation
precedes the count check and is not rolled back), but the facade builder is not
rebuilt, so a subsequent `build` behaves exactly as before the failed call. -/
theorem explicit_dataflows_failure_state {κ α : Type} (s : MergeDataset κ α)
    (flows : List (List α)) (h : flows.length < s.datasets.length) :
    (explicit_dataflows s flows).2 = false
    ∧ (explicit_dataflows s flows).1.dataflows = some flows
    ∧ (explicit_dataflows s flows).1.dataflow = s.dataflow
    ∧ ∀ kwargs : κ,
        (explicit_dataflows s flows).1.dataflow.build kwargs
          = s.dataflow.build kwargs := by
  have hn : ¬ s.datasets.length ≤ flows.length := Nat.not_le.2 h
  refine ⟨?_, ?_, ?_, fun kwargs => ?_⟩ <;> simp [explicit_dataflows, hn]

/-- Witness for C10's amended statement at a concrete undersized call. -/
theorem explicit_dataflows_failure_state_witness :
    ([[42]].length < sampleStreaming.datasets.length
      ∧ (explicit_dataflows sampleStreaming [[42]]).2 = false
      ∧ (explicit_dataflows sampleStreaming [[42]]).1.dataflows = some [[42]]
      ∧ (explicit_dataflows sampleStreaming [[42]]).1.dataflow.build ()
          = sampleStreaming.dataflow.build ()) :=
  ⟨by decide,
    (explicit_dataflows_failure_state sampleStreaming [[42]] (by decide)).1,
    (explicit_dataflows_failure_state sampleStreaming [[42]] (by decide)).2.1,
    (explicit_dataflows_failure_state sampleStreaming [[42]] (by decide)).2.2.2 ()⟩

theorem train_heldout_lengths {α : Type} (dps : List α) (draws : List Bool)
    (hlen : draws.length = dps.length) :
    (train_split dps draws).length + (heldout_split dps draws).length = dps.length := by
  have hz : (dps.zip draws).length = dps.length := by
    rw [List.length_zip, hlen, Nat.min_self]
  have h := length_filter_add_length_filter_not (dps.zip draws) fun p => p.2
  rw [hz] at h
  simp only [train_split, heldout_split, List.length_map]
  omega

theorem train_heldout_perm {α : Type} (dps : List α) (draws : List Bool)
    (hlen : draws.length = dps.length) :
    (train_split dps draws ++ heldout_split dps draws).Perm dps := by
  have hp1 : (((dps.zip draws).filter fun p => !p.2)
      ++ ((dps.zip draws).filter fun p => p.2)).Perm (dps.zip draws) :=
    (List.perm_append_comm).trans (List.filter_append_perm (fun p => p.2) (dps.zip draws))
  have hp2 := hp1.map Prod.fst
  rw [List.map_fst_zip dps draws (Nat.le_of_eq hlen.symm)] at hp2
  have e1 : train_split dps draws ++ heldout_split dps draws
      = (((dps.zip draws).filter fun p => !p.2)
          ++ ((dps.zip draws).filter fun p => p.2)).map Prod.fst :=
    (List.map_append _ _ _).symm
  rw [e1]
  exact hp2

/-- C2: with `add_test = false` the Bernoulli split of a buffered collection of
`N` datapoints yields `train` and `val` with `len(train) + len(val) = N`; their
concatenation is a permutation of the buffer (every buffered element lands in
exactly one split, with multiplicity); each datapoint goes to `val` exactly
when its draw is 1 and to `train` when it is 0; and for duplicate-free buffers
the two splits are disjoint.  The expected-size statement `E[len(val)] = r*N`
is a property of the random draws, not of this deterministic function. -/
theorem split_no_test_partition {κ α : Type} [DecidableEq α]
    (s : MergeDataset κ α) (dps : List α) (draws : List Bool)
    (hbuf : s.datapoint_list = some dps) (hlen : draws.length = dps.length) :
    split_datasets s draws false
        = Except.ok { split_cache := [("train", train_split dps draws),
            ("val", heldout_split dps draws)] }
    ∧ (train_split dps draws).length + (heldout_split dps draws).length = dps.length
    ∧ (train_split dps draws ++ heldout_split dps draws).Perm dps
    ∧ (∀ p ∈ dps.zip draws,
        if p.2 then p.1 ∈ heldout_split dps draws else p.1 ∈ train_split dps draws)
    ∧ (dps.Nodup → ∀ x ∈ train_split dps draws, x ∉ heldout_split dps draws) := by
  refine ⟨by simp [split_datasets, hbuf], train_heldout_lengths dps draws hlen,
    train_heldout_perm dps draws hlen, ?_, ?_⟩
  · intro p hp
    cases hb : p.2
    · simp only [hb, if_false, Bool.false_eq_true]
      exact List.mem_map_of_mem Prod.fst (List.mem_filter.2 ⟨hp, by simp [hb]⟩)
    · simp only [hb, if_true]
      exact List.mem_map_of_mem Prod.fst (List.mem_filter.2 ⟨hp, hb⟩)
  · intro hnd x hxt hxh
    have hperm := train_heldout_perm dps draws hlen
    have hcnt := hperm.count_eq x
    rw [List.count_append] at hcnt
    have h1 : 0 < (train_split dps draws).count x := List.count_pos_iff.2 hxt
    have h2 : 0 < (heldout_split dps draws).count x := List.count_pos_iff.2 hxh
    have h3 : dps.count x ≤ 1 := List.nodup_iff_count_le_one.1 hnd x
    omega

/-- Witness for C2 at a concrete buffered instance and concrete draws. -/
theorem split_no_test_partition_witness :
    (sampleBuffered.datapoint_list = some [10, 11, 12, 13, 14]
      ∧ ([false, true, false, true, false] : List Bool).length
          = ([10, 11, 12, 13, 14] : List Nat).length)
    ∧ split_datasets sampleBuffered [false, true, false, true, false] false
        = Except.ok { split_cache :=
            [("train", train_split [10, 11, 12, 13, 14] [false, true, false, true, false]),
             ("val", heldout_split [10, 11, 12, 13, 14] [false, true, false, true, false])] }
    ∧ (train_split [10, 11, 12, 13, 14] [false, true, false, true, false]
        ++ heldout_split [10, 11, 12, 13, 14] [false, true, false, true, false]).Perm
          [10, 11, 12, 13, 14] :=
  ⟨⟨rfl, rfl⟩,
    (split_no_test_partition sampleBuffered [10, 11, 12, 13, 14]
      [false, true, false, true, false] rfl rfl).1,
    (split_no_test_partition sampleBuffered [10, 11, 12, 13, 14]
      [false, true, false, true, false] rfl rfl).2.2.1⟩

theorem enumFrom_parity {α : Type} (xs : List α) : ∀ k : Nat,
    (((xs.enumFrom (k+1)).filter fun p => p.1 % 2 == 0).map Prod.snd
        = ((xs.enumFrom k).filter fun p => p.1 % 2 != 0).map Prod.snd)
    ∧ (((xs.enumFrom (k+1)).filter fun p => p.1 % 2 != 0).map Prod.snd
        = ((xs.enumFrom k).filter fun p => p.1 % 2 == 0).map Prod.snd) := by
  induction xs with
  | nil => intro k; exact ⟨rfl, rfl⟩
  | cons x xs ih =>
    intro k
    have ih1 := (ih (k+1)).1
    have ih2 := (ih (k+1)).2
    simp at ih1 ih2
    rcases Nat.mod_two_eq_zero_or_one k with h | h
    · have e1 : (k+1) % 2 = 1 := by omega
      constructor
      · simp [List.enumFrom_cons, List.filter_cons, h, e1, ih1]
      · simp [List.enumFrom_cons, List.filter_cons, h, e1, ih2]
    · have e1 : (k+1) % 2 = 0 := by omega
      constructor
      · simp [List.enumFrom_cons, List.filter_cons, h, e1, ih1]
      · simp [List.enumFrom_cons, List.filter_cons, h, e1, ih2]

theorem even_positions_cons {α : Type} (x : α) (xs : List α) :
    even_positions (x :: xs) = x :: odd_positions xs := by
  have hp := (enumFrom_parity xs 0).1
  simp at hp
  simp [even_positions, odd_positions, List.enum, List.enumFrom_cons, List.filter_cons, hp]

theorem odd_positions_cons {α : Type} (x : α) (xs : List α) :
    odd_positions (x :: xs) = even_positions xs := by
  have hp := (enumFrom_parity xs 0).2
  simp at hp
  simp [even_positions, odd_positions, List.enum, List.enumFrom_cons, List.filter_cons, hp]

theorem even_odd_lengths {α : Type} (l : List α) :
    (even_positions l).length = (l.length + 1) / 2
    ∧ (odd_positions l).length = l.length / 2 := by
  induction l with
  | nil => exact ⟨by simp [even_positions, List.enum], by simp [odd_positions, List.enum]⟩
  | cons x xs ih =>
    rw [even_positions_cons, odd_positions_cons, List.length_cons, List.length_cons]
    refine ⟨?_, ?_⟩
    · rw [ih.2]; omega
    · rw [ih.1]

theorem even_odd_getElem {α : Type} (l : List α) : ∀ i : Nat,
    (even_positions l)[i]? = l[2*i]? ∧ (odd_positions l)[i]? = l[2*i+1]? := by
  induction l with
  | nil => intro i; simp [even_positions, odd_positions]
  | cons x xs ih =>
    intro i
    rw [even_positions_cons, odd_positions_cons]
    constructor
    · cases i with
      | zero => simp
      | succ j =>
        rw [List.getElem?_cons_succ, (ih j).2]
        have e : 2 * (j+1) = (2*j+1) + 1 := by omega
        rw [e, List.getElem?_cons_succ]
    · rw [(ih i).1, List.getElem?_cons_succ]

/-- C5: with `add_test = true` the held-out pool, in its buffered order, is
alternated by position parity: the element of `val` at position `i` is the pool
element at position `2*i` and the element of `test` at position `i` is the pool
element at position `2*i+1`; consequently the two splits cover the pool and
their sizes differ by at most one. -/
theorem split_add_test_parity {κ α : Type} (s : MergeDataset κ α) (dps : List α)
    (draws : List Bool) (hbuf : s.datapoint_list = some dps) :
    split_datasets s draws true
        = Except.ok { split_cache := [("train", train_split dps draws),
            ("val", even_positions (heldout_split dps draws)),
            ("test", odd_positions (heldout_split dps draws))] }
    ∧ (∀ i : Nat, (even_positions (heldout_split dps draws))[i]?
          = (heldout_split dps draws)[2*i]?)
    ∧ (∀ i : Nat, (odd_positions (heldout_split dps draws))[i]?
          = (heldout_split dps draws)[2*i+1]?)
    ∧ (even_positions (heldout_split dps draws)).length
          + (odd_positions (heldout_split dps draws)).length
        = (heldout_split dps draws).length
    ∧ (even_positions (heldout_split dps draws)).length
        ≤ (odd_positions (heldout_split dps draws)).length + 1
    ∧ (odd_positions (heldout_split dps draws)).length
        ≤ (even_positions (heldout_split dps draws)).length := by
  obtain ⟨he, ho⟩ := even_odd_lengths (heldout_split dps draws)
  refine ⟨by simp [split_datasets, hbuf], fun i => (even_odd_getElem _ i).1,
    fun i => (even_odd_getElem _ i).2, ?_, ?_, ?_⟩ <;> rw [he, ho] <;> omega

/-- Witness for C5 at a concrete buffered instance: draws put `11, 12, 13` into
the held-out pool, which is then alternated into `val = [11, 13]` and
`test = [12]`. -/
theorem split_add_test_parity_witness :
    sampleBuffered.datapoint_list = some [10, 11, 12, 13, 14]
    ∧ split_datasets sampleBuffered [false, true, true, true, false] true
        = Except.ok { split_cache :=
            [("train", train_split [10, 11, 12, 13, 14] [false, true, true, true, false]),
             ("val", even_positions
                (heldout_split [10, 11, 12, 13, 14] [false, true, true, true, false])),
             ("test", odd_positions
                (heldout_split [10, 11, 12, 13, 14] [false, true, true, true, false]))] }
    ∧ (even_positions (heldout_split [10, 11, 12, 13, 14]
        [false, true, true, true, false]))[0]?
        = (heldout_split [10, 11, 12, 13, 14] [false, true, true, true, false])[0]? :=
  ⟨rfl,
    (split_add_test_parity sampleBuffered [10, 11, 12, 13, 14]
      [false, true, true, true, false] rfl).1,
    (split_add_test_parity sampleBuffered [10, 11, 12, 13, 14]
      [false, true, true, true, false] rfl).2.1 0⟩

/-- Sample merge state whose active builder streams three datapoints. -/
def sampleStream3 : MergeDataset Unit Nat :=
  { datasets := []
    dataflows := none
    datapoint_list := none
    dataflow := { dataflow_builders := [fun _ => [10, 20, 30]], dataflows := none } }

/-- C8: `buffer_datasets` drains the stream produced by the active builder in a
single pass and stores a buffered collection that is a permutation of it (same
elements with the same multiplicities); an empty stream yields an empty
buffered collection. -/
theorem buffer_datasets_drains_and_permutes {κ α : Type} (s : MergeDataset κ α)
    (kwargs : κ) (σ : List Nat)
    (hσ : σ.Perm (List.range (s.dataflow.build kwargs).length)) :
    (buffer_datasets s kwargs σ).datapoint_list
        = some (CacheData_get_cache (s.dataflow.build kwargs) σ)
    ∧ (CacheData_get_cache (s.dataflow.build kwargs) σ).Perm (s.dataflow.build kwargs)
    ∧ (s.dataflow.build kwargs = [] →
        (buffer_datasets s kwargs σ).datapoint_list = some []) := by
  have hperm := CacheData_get_cache_perm (s.dataflow.build kwargs) σ hσ
  refine ⟨rfl, hperm, ?_⟩
  intro hempty
  have hnil : CacheData_get_cache (s.dataflow.build kwargs) σ = [] :=
    List.Perm.eq_nil (hempty ▸ hperm)
  simp [buffer_datasets, hnil]

/-- Witness for C8 at a concrete three-element stream and a concrete shuffle. -/
theorem buffer_datasets_drains_and_permutes_witness :
    ([2, 0, 1] : List Nat).Perm (List.range (sampleStream3.dataflow.build ()).length)
    ∧ (CacheData_get_cache (sampleStream3.dataflow.build ()) [2, 0, 1]).Perm
        (sampleStream3.dataflow.build ()) :=
  ⟨by decide,
    (buffer_datasets_drains_and_permutes sampleStream3 () [2, 0, 1] (by decide)).2.1⟩

/-- C1: the merged category set is the union of the input category names; the
merged permitted values of a category are the union of that category's values
across the inputs (inputs not defining it contribute nothing); and a
sub-category is retained under a merged category exactly when every input that
defines the category attaches that sub-category to it. -/
theorem merged_categories_rules (regs : List DatasetCategories) (cat sub : String)
    (hcat : cat ∈ (get_merged_categories regs).catNames) :
    (∀ c : String, c ∈ (get_merged_categories regs).catNames ↔ ∃ r ∈ regs, c ∈ r.catNames)
    ∧ (∀ c v : String,
        v ∈ (get_merged_categories regs).valuesOf c ↔ ∃ r ∈ regs, v ∈ r.valuesOf c)
    ∧ (sub ∈ (get_merged_categories regs).subCatNamesOf cat ↔
        ∀ r ∈ regs, r.defines cat = true → sub ∈ r.subCatNamesOf cat) :=
  ⟨fun _ => mem_catNames_get_merged, fun _ _ => mem_valuesOf_get_merged,
    mem_subCatNames_get_merged hcat⟩

/-- Sample registry: categories `w` (values `a`) and `l`; `w` carries the
sub-category `t`. -/
def sampleReg1 : DatasetCategories :=
  { cats := [("w", ["a"]), ("l", [])], sub_cats := [("w", [("t", ["x"])])] }

/-- Sample registry: category `w` (values `b`); `w` carries the sub-categories
`t` and `p`. -/
def sampleReg2 : DatasetCategories :=
  { cats := [("w", ["b"])], sub_cats := [("w", [("t", ["y"]), ("p", [])])] }

/-- Witness for C1 at two concrete registries. -/
theorem merged_categories_rules_witness :
    ("w" ∈ (get_merged_categories [sampleReg1, sampleReg2]).catNames)
    ∧ ("t" ∈ (get_merged_categories [sampleReg1, sampleReg2]).subCatNamesOf "w" ↔
        ∀ r ∈ [sampleReg1, sampleReg2],
          r.defines "w" = true → "t" ∈ r.subCatNamesOf "w") :=
  ⟨by decide, (merged_categories_rules [sampleReg1, sampleReg2] "w" "t" (by decide)).2.2⟩

/-- Counterexample for C9: constructing a `MergeDataset` from zero datasets
succeeds, because the construction-time descriptor check inspects only
MergeDataset's own constant descriptor, so construction does not require at
least one well-formed input dataset. -/
theorem merge_init_empty_succeeds :
    (MergeDataset_init ([] : List (Dataset Unit Nat))).isOk = true := rfl

/-- C9 amended: constructing a `MergeDataset` succeeds for any number of input
datasets, including zero; the merged categories are computed eagerly at
construction and obey the union rule over the datasets that carry a registry;
the minimal-descriptor check of `DatasetBase.__init__` fails exactly on an
absent descriptor, which for an input dataset happens in its own construction
rather than in MergeDataset's. -/
theorem merge_init_any_count {κ α : Type} (datasets : List (Dataset κ α)) :
    MergeDataset_init datasets
        = Except.ok
            ({ datasets := datasets, dataflows := none, datapoint_list := none,
               dataflow := MergeDataset_builder datasets none },
             MergeDataset_categories datasets)
    ∧ (∀ c : String, c ∈ (MergeDataset_categories datasets).catNames ↔
        ∃ d ∈ datasets, ∃ reg, d.categories = some reg ∧ c ∈ reg.catNames)
    ∧ (datasetBase_checkInfo none).isOk = false := by
  refine ⟨rfl, ?_, rfl⟩
  intro c
  rw [MergeDataset_categories, mem_catNames_get_merged]
  constructor
  · rintro ⟨r, hr, hc⟩
    obtain ⟨d, hd, hdr⟩ := List.mem_filterMap.1 hr
    exact ⟨d, hd, r, hdr, hc⟩
  · rintro ⟨d, hd, reg, hdr, hc⟩
    exact ⟨reg, List.mem_filterMap.2 ⟨d, hd, hdr⟩, hc⟩

/-- Sample split builder over concrete train, val and test collections. -/
def sampleSplitFlow : SplitDataFlow Nat :=
  { split_cache := [("train", [1, 2, 3]), ("val", [4]), ("test", [5])] }

/-- Counterexample for C6: with `max_datapoints` absent, `build` fails with a
type error instead of returning the unbounded split stream, and a call without
the `split` argument succeeds (defaulting to the train split), so `split` is
not required. -/
theorem split_build_requires_max :
    sampleSplitFlow.build { split := some "train", max_datapoints := none }
        = Except.error SplitBuildErr.typeErr
    ∧ sampleSplitFlow.build { split := some "train", max_datapoints := none }
        ≠ Except.ok [1, 2, 3]
    ∧ sampleSplitFlow.build { split := none, max_datapoints := some 2 }
        = Except.ok [1, 2] :=
  ⟨rfl, fun h => Except.noConfusion h, rfl⟩

/-- C6 amended: on the split builder, `build` requires `max_datapoints`: when
absent the call fails with a type error (`int(None)`); when present, an unknown
split name fails with a lookup error, and a known split returns its cached
collection truncated to at most `max_datapoints` items (the whole collection
when it is no longer than the bound); the `split` argument is optional and
defaults to the train split. -/
theorem split_build_rules {α : Type} (b : SplitDataFlow α) (kwargs : SplitKwargs)
    (m : Nat) :
    (kwargs.max_datapoints = none →
        b.build kwargs = Except.error SplitBuildErr.typeErr)
    ∧ (kwargs.max_datapoints = some m →
        (b.split_cache.lookup (kwargs.split.getD "train") = none →
            b.build kwargs = Except.error SplitBuildErr.keyErr)
        ∧ ∀ cache, b.split_cache.lookup (kwargs.split.getD "train") = some cache →
            b.build kwargs = Except.ok (cache.take m)
            ∧ (cache.take m).length ≤ m
            ∧ (cache.length ≤ m → b.build kwargs = Except.ok cache))
    ∧ (kwargs.split = none →
        b.build kwargs
          = b.build { split := some "train", max_datapoints := kwargs.max_datapoints }) := by
  refine ⟨?_, ?_, ?_⟩
  · intro h; simp [SplitDataFlow.build, h]
  · intro h
    constructor
    · intro hl; simp [SplitDataFlow.build, h, hl]
    · intro cache hl
      refine ⟨by simp [SplitDataFlow.build, h, hl, CustomDataFromList], ?_, ?_⟩
      · exact List.length_take_le m cache
      · intro hlen
        simp [SplitDataFlow.build, h, hl, CustomDataFromList, List.take_of_length_le hlen]
  · intro h; simp [SplitDataFlow.build, h]

/-- Witness for C6's amended statement: all three hypothesis branches at
concrete inputs on the sample split builder. -/
theorem split_build_rules_witness :
    (({ split := some "train", max_datapoints := none } : SplitKwargs).max_datapoints = none
      ∧ sampleSplitFlow.build { split := some "train", max_datapoints := none }
          = Except.error SplitBuildErr.typeErr)
    ∧ (({ split := some "val", max_datapoints := some 2 } : SplitKwargs).max_datapoints
            = some 2
      ∧ sampleSplitFlow.split_cache.lookup "val" = some [4]
      ∧ sampleSplitFlow.build { split := some "val", max_datapoints := some 2 }
          = Except.ok ([4].take 2))
    ∧ (({ split := none, max_datapoints := some 1 } : SplitKwargs).split = none
      ∧ sampleSplitFlow.build { split := none, max_datapoints := some 1 }
          = sampleSplitFlow.build { split := some "train", max_datapoints := some 1 }) :=
  ⟨⟨rfl, (split_build_rules sampleSplitFlow
      { split := some "train", max_datapoints := none } 0).1 rfl⟩,
   ⟨rfl, rfl,
    (((split_build_rules sampleSplitFlow
        { split := some "val", max_datapoints := some 2 } 2).2.1 rfl).2 [4] rfl).1⟩,
   ⟨rfl, (split_build_rules sampleSplitFlow
      { split := none, max_datapoints := some 1 } 1).2.2 rfl⟩⟩

end DeepDoc
